import Mathlib

/-!
Verification of the DeepOBS PyTorch runner core.

Shallow embedding of `src/deepobs/pytorch/runners/runner.py`:
the Evaluator (`PTRunner.evaluate`), the two epoch-loop drivers
(`StandardRunner.training` and `LearningRateScheduleRunner.training`),
the persistence decision of `PTRunner.run`, and the Python call binding
of `run`'s invocation of `training`.

Numeric values that can become NaN/Inf (batch losses, regularization
losses) are modelled by `PFloat`, an idealized float: a rational, NaN,
or a signed infinity.  Accuracies, which no claim inspects beyond their
mean, are modelled as rationals.
-/

namespace DeepOBS

/-- Idealized Python float: a finite rational, NaN, or a signed infinity. -/
inductive PFloat where
  | finite (q : ℚ)
  | nan
  | inf
  | neginf
deriving DecidableEq, Repr

namespace PFloat

/-- IEEE-style addition on the idealized float (`batch_loss += regularizer_loss`,
`loss += batch_loss.item()`, `loss += ... .item()` in the source). -/
def add : PFloat → PFloat → PFloat
  | nan, _ => nan
  | _, nan => nan
  | inf, neginf => nan
  | neginf, inf => nan
  | inf, _ => inf
  | _, inf => inf
  | neginf, _ => neginf
  | _, neginf => neginf
  | finite a, finite b => finite (a + b)

/-- Division by a (positive) batch counter: `loss /= batchCount`. -/
def divNat (x : PFloat) (n : ℕ) : PFloat :=
  match x with
  | finite q => finite (q / n)
  | nan => nan
  | inf => inf
  | neginf => neginf

/-- Divergence test of the drivers: `np.isnan(x) or np.isinf(x)`. -/
def isDivergent : PFloat → Bool
  | finite _ => false
  | _ => true

end PFloat

/-- One batch as observed through the TestProblem adapter:
the value pair returned by `get_batch_loss_and_accuracy()`. -/
structure Batch where
  loss : PFloat
  accuracy : ℚ
deriving DecidableEq, Repr

/-- The TestProblem adapter, abstracted as the streams of batches each
mode's pass delivers, indexed by the epoch at which the pass runs, plus
the optional regularization capability (`hasattr(tproblem,
'get_regularization_loss')` and the value that method returns). -/
structure TProblem where
  trainEvalBatches : ℕ → List Batch
  testBatches : ℕ → List Batch
  trainBatches : ℕ → List Batch
  reg : Option PFloat

/-- Errors a run can surface to the caller of `run`: Python's
`ZeroDivisionError` from an empty evaluation pass, the `UnboundLocalError`
from reading `batch_loss` (line 270) when no training batch was ever
delivered, and the `UnboundLocalError` from `global_step += 1` (line 265)
when `global_step` was never initialized — its initialization at line 219
sits inside the `if tb_log:` block. -/
inductive RunError where
  | zeroDivision
  | unboundLocal
  | unboundGlobalStep
deriving DecidableEq, Repr

/-- Accumulator of the `while True` evaluation loop in `PTRunner.evaluate`:
`loss`, `accuracy` and `batchCount`. -/
structure EvalAcc where
  loss : PFloat
  accuracy : ℚ
  batchCount : ℕ
deriving DecidableEq, Repr

/-- The evaluation loop body, folded over the batches of the pass
(`batchCount += 1; loss += batch_loss.item(); accuracy += batch_accuracy`). -/
def evalLoop (batches : List Batch) : EvalAcc :=
  batches.foldl
    (fun acc b =>
      { loss := acc.loss.add b.loss
        accuracy := acc.accuracy + b.accuracy
        batchCount := acc.batchCount + 1 })
    ⟨.finite 0, 0, 0⟩

/-- Embeds `PTRunner.evaluate` after the mode switch: run the evaluation loop,
divide by the batch counter (Python raises `ZeroDivisionError` when it is
zero), then add the regularization loss once if the capability is present. -/
def evaluate (batches : List Batch) (reg : Option PFloat) :
    Except RunError (PFloat × ℚ) :=
  let acc := evalLoop batches
  if acc.batchCount = 0 then .error .zeroDivision
  else
    let loss := acc.loss.divNat acc.batchCount
    let accuracy := acc.accuracy / (acc.batchCount : ℚ)
    let loss :=
      match reg with
      | some r => loss.add r
      | none => loss
    .ok (loss, accuracy)

/-- The per-batch training loss after the optional regularization addition
(`batch_loss += regularizer_loss`). -/
def effLoss (reg : Option PFloat) (b : Batch) : PFloat :=
  match reg with
  | some r => b.loss.add r
  | none => b.loss

/-- Observable events of a run, in program order: the two evaluator passes
of an epoch, the schedule advance of the schedule-aware driver, and one
training step (`zero_grad`/loss/`backward`/`step`) per training batch. -/
inductive Event where
  | evalTrainEval (e : ℕ)
  | evalTest (e : ℕ)
  | schedStep (e : ℕ)
  | trainStep (e : ℕ) (i : ℕ)
deriving DecidableEq, Repr

/-- Result of one training pass: the value of the local `batch_loss` after
the pass (`none` when it was never assigned, in Python an unbound local),
the value of the local `global_step`, the minibatch log, and the event
trace. -/
structure PassResult where
  lastLoss : Option PFloat
  globalStep : Option ℕ
  mblog : List PFloat
  trace : List Event
deriving DecidableEq, Repr

/-- The `while True` training loop of the drivers: for each batch compute
the (regularized) batch loss, append it to the minibatch log when
`batch_count % train_log_interval == 0`, run one optimizer step, and
increment `batch_count`.  `last` and `gs` carry the current values of the
Python locals `batch_loss` and `global_step`, which survive the loop (and
survive across epochs).  `gsTrack = true` is `StandardRunner`'s body, whose
line 265 runs `global_step += 1` unconditionally for every batch: when
`global_step` is unbound (`gs = none`, i.e. `tb_log` was falsy so line 219
never ran) the first batch raises `UnboundLocalError`, after the log append
of that batch but before any further batch.  `gsTrack = false` is
`LearningRateScheduleRunner`'s body, which has no `global_step`.  The
telemetry emission itself (line 262) is guarded by `if tb_log:`, under
which `global_step` is always initialized, so it adds no error path and is
not modelled. -/
def trainingPass (reg : Option PFloat) (interval e : ℕ) (gsTrack : Bool) :
    List Batch → ℕ → Option ℕ → Option PFloat → List PFloat → List Event →
      Except RunError PassResult
  | [], _, gs, last, log, tr => .ok ⟨last, gs, log, tr⟩
  | b :: bs, i, gs, last, log, tr =>
      let bl := effLoss reg b
      let log := if i % interval = 0 then log ++ [bl] else log
      let tr := tr ++ [.trainStep e i]
      if gsTrack then
        match gs with
        | none => .error .unboundGlobalStep
        | some g =>
            trainingPass reg interval e gsTrack bs (i + 1) (some (g + 1))
              (some bl) log tr
      else
        trainingPass reg interval e gsTrack bs (i + 1) gs (some bl) log tr

/-- The local state of a `training` call in either driver: the four metric
trajectories, the minibatch log, the Python locals `batch_loss` (unassigned
until the first training batch) and `global_step` (only ever assigned in
`StandardRunner.training`, and only when `tb_log` is truthy), and the event
trace of the run. -/
structure St where
  train_losses : List PFloat
  test_losses : List PFloat
  train_accuracies : List ℚ
  test_accuracies : List ℚ
  minibatch_train_losses : List PFloat
  lastBatchLoss : Option PFloat
  globalStep : Option ℕ
  trace : List Event
deriving Repr

/-- State at the top of `training`: all logs empty, `batch_loss` and
`global_step` unassigned. -/
def initSt : St :=
  ⟨[], [], [], [], [], none, none, []⟩

/-- The evaluation block at the start of every epoch iteration of both
drivers: evaluate on the train-eval split, append to `train_losses` /
`train_accuracies`, then evaluate on the test split and append to
`test_losses` / `test_accuracies`. -/
def evalStep (tp : TProblem) (e : ℕ) (st : St) : Except RunError St := do
  let p1 ← evaluate (tp.trainEvalBatches e) tp.reg
  let p2 ← evaluate (tp.testBatches e) tp.reg
  .ok { st with
        train_losses := st.train_losses ++ [p1.1]
        train_accuracies := st.train_accuracies ++ [p1.2]
        test_losses := st.test_losses ++ [p2.1]
        test_accuracies := st.test_accuracies ++ [p2.2]
        trace := st.trace ++ [.evalTrainEval e, .evalTest e] }

/-- Modelled from the spec: `Runner._abort_routine` lives in
`deepobs/abstract_runner/abstract_runner.py`, which is not among the
provided sources.  Per the spec (§4.4) it pads a trajectory with a
repeated copy of its last real value until it reaches length
`num_epochs + 1`. -/
def abortPad {α : Type} (num_epochs : ℕ) (traj : List α) : List α :=
  match traj.getLast? with
  | some v => traj ++ List.replicate (num_epochs + 1 - traj.length) v
  | none => traj

/-- Modelled from the spec: the abort routine applied to the run state —
the four metric trajectories are padded, the minibatch log is returned
unchanged (spec §4.4: "the minibatch log unchanged — it is not padded"). -/
def abortSt (num_epochs : ℕ) (st : St) : St :=
  { st with
    train_losses := abortPad num_epochs st.train_losses
    test_losses := abortPad num_epochs st.test_losses
    train_accuracies := abortPad num_epochs st.train_accuracies
    test_accuracies := abortPad num_epochs st.test_accuracies }

/-- The schedule advance before an epoch's training pass: the schedule-aware
driver steps the learning-rate schedule when one was built
(`if lr_sched_epochs is not None:` — `sched = true`); the standard driver
and schedule-free runs leave the state unchanged. -/
def schedAdvance (sched : Bool) (e : ℕ) (st : St) : St :=
  if sched then { st with trace := st.trace ++ [.schedStep e] } else st

/-- The training block of one epoch iteration: the optional schedule
advance, then the training pass over this epoch's batches starting with
`batch_count = 0`.  A crash inside the pass (the `global_step` unbound
local of the standard driver, `gsTrack = true`) propagates. -/
def epochTrain (sched gsTrack : Bool) (tp : TProblem) (interval e : ℕ)
    (st : St) : Except RunError St :=
  match trainingPass tp.reg interval e gsTrack (tp.trainBatches e) 0
      (schedAdvance sched e st).globalStep
      (schedAdvance sched e st).lastBatchLoss
      (schedAdvance sched e st).minibatch_train_losses
      (schedAdvance sched e st).trace with
  | .error err => .error err
  | .ok pr =>
      .ok { schedAdvance sched e st with
            minibatch_train_losses := pr.mblog
            lastBatchLoss := pr.lastLoss
            globalStep := pr.globalStep
            trace := pr.trace }

/-- The `for epoch_count in range(num_epochs+1)` loop of the two drivers.
The loop bodies differ in exactly two statements, reflected in the two
Bool parameters: `LearningRateScheduleRunner.training` advances the
learning-rate schedule before the pass when one was built
(`sched = lr_sched_epochs is not None`) and has no `global_step`
(`gsTrack = false`); `StandardRunner.training` has no schedule
(`sched = false`) but runs `global_step += 1` for every training batch
(`gsTrack = true`), which crashes when `global_step` was never
initialized.  The first argument list is the remaining epoch indices of
`range(num_epochs+1)`; whether the loop ends by `break` or by exhausting
the range, control falls through to the output-dictionary construction,
i.e. the state is returned.  Each iteration evaluates, breaks after the
evaluation when `epoch_count == num_epochs`, otherwise trains (a crash in
the pass propagates), then inspects the local `batch_loss`: reading it
unassigned is Python's `UnboundLocalError`; if it is NaN or infinite the
abort routine runs and the loop breaks. -/
def trainingLoop (sched gsTrack : Bool) (tp : TProblem) (N interval : ℕ) :
    List ℕ → St → Except RunError St
  | [], st => .ok st
  | e :: rest, st =>
    match evalStep tp e st with
    | .error err => .error err
    | .ok st1 =>
      if e = N then .ok st1
      else
        match epochTrain sched gsTrack tp interval e st1 with
        | .error err => .error err
        | .ok st2 =>
          match st2.lastBatchLoss with
          | none => .error .unboundLocal
          | some bl =>
            if bl.isDivergent then .ok (abortSt N st2)
            else trainingLoop sched gsTrack tp N interval rest st2

/-- Keys of the output dictionary literals of the two `training` methods. -/
inductive OutKey where
  | train_losses
  | test_losses
  | minibatch_train_losses
  | train_accuracies
  | test_accuracies
  | analyzable_training_params
deriving DecidableEq, BEq, Repr

/-- Values of the output dictionaries: metric lists, accuracy lists, and the
`analyzable_training_params` sub-mapping holding `lr_sched_epochs` and
`lr_sched_factors` exactly as passed (Python `None` as `none`). -/
inductive OutVal where
  | losses (l : List PFloat)
  | accuracies (l : List ℚ)
  | trainingParams (lr_sched_epochs : Option (List ℤ))
      (lr_sched_factors : Option (List ℚ))
deriving DecidableEq, BEq, Repr

/-- The output dictionary literal of `StandardRunner.training`. -/
def stdOutput (st : St) : List (OutKey × OutVal) :=
  [(.train_losses, .losses st.train_losses),
   (.test_losses, .losses st.test_losses),
   (.minibatch_train_losses, .losses st.minibatch_train_losses),
   (.train_accuracies, .accuracies st.train_accuracies),
   (.test_accuracies, .accuracies st.test_accuracies)]

/-- The output dictionary literal of `LearningRateScheduleRunner.training`:
the minibatch-loss entry is commented out in the source, and the
`analyzable_training_params` sub-dict records the two schedule arguments. -/
def lrOutput (es : Option (List ℤ)) (fs : Option (List ℚ)) (st : St) :
    List (OutKey × OutVal) :=
  [(.train_losses, .losses st.train_losses),
   (.test_losses, .losses st.test_losses),
   (.train_accuracies, .accuracies st.train_accuracies),
   (.test_accuracies, .accuracies st.test_accuracies),
   (.analyzable_training_params, .trainingParams es fs)]

/-- Embeds `StandardRunner.training` as a whole: `global_step = 0` runs only
inside the `if tb_log:` block (lines 212–219; on an `ImportError` the block
still reaches line 219, so a truthy `tb_log` always initializes it), then
the epoch loop runs from epoch 0 and the output dictionary is packaged. -/
def stdTraining (tp : TProblem) (N interval : ℕ) (tb_log : Bool) :
    Except RunError (List (OutKey × OutVal)) :=
  (trainingLoop false true tp N interval (List.range (N + 1))
    { initSt with globalStep := if tb_log then some 0 else none }).map
    stdOutput

/-- Embeds `LearningRateScheduleRunner.training` as a whole: a schedule is built
exactly when `lr_sched_epochs is not None`; the epoch loop runs from
epoch 0 and the output dictionary records the schedule arguments. -/
def lrTraining (tp : TProblem) (N : ℕ) (es : Option (List ℤ))
    (fs : Option (List ℚ)) (interval : ℕ) :
    Except RunError (List (OutKey × OutVal)) :=
  (trainingLoop es.isSome false tp N interval (List.range (N + 1))
    initSt).map (lrOutput es fs)

/-- Python truthiness of the parsed `weight_decay` value (`None` or a
float): `None` and `0.0` are falsy. -/
def pyTruthy : Option ℚ → Bool
  | none => false
  | some q => q != 0

/-- The two `run` arguments that the persistence decision involves. -/
structure RunFlags where
  weight_decay : Option ℚ
  no_logs : Bool

/-- The persistence decision of `PTRunner.run`: after `parse_args` the
locals are overwritten from the parsed dict, and line 66 of the source
assigns `no_logs = args['weight_decay']`; the output is then written
under `if not no_logs:`.  (`parse_args` itself is in the abstract runner,
outside the provided sources; modelled from the spec as returning each
accepted argument under its own name, so `args['weight_decay']` is the
caller's `weight_decay` and `args['no_logs']` the caller's `no_logs`.) -/
def runWritesOutput (args : RunFlags) : Bool :=
  let no_logs := pyTruthy args.weight_decay
  !no_logs

/-- Embeds `StandardRunner.run` after test-problem construction: run `training`,
then (post-processing aside) persist the output according to the
persistence decision.  Returns the output record paired with whether it
was persisted; an error from `training` propagates and nothing is
persisted. -/
def stdRun (tp : TProblem) (N interval : ℕ) (tb_log : Bool)
    (args : RunFlags) : Except RunError (List (OutKey × OutVal) × Bool) :=
  match stdTraining tp N interval tb_log with
  | .error err => .error err
  | .ok out => .ok (out, runWritesOutput args)

/-! ## Python call binding of `run`'s invocation of `training`

`PTRunner.run` (line 83) calls
`self.training(tproblem, hyperparams, num_epochs, print_train_iter,
train_log_interval, tb_log, tb_log_dir, **training_params)`.
Which parameter of the callee receives which value is decided by Python's
call-binding protocol, modelled below for a callee without `*args` /
`**kwargs` (the signature of `LearningRateScheduleRunner.training`). -/

/-- One formal parameter of a Python function: its name and whether it has
a default value. -/
structure ParamSpec where
  name : String
  hasDefault : Bool
deriving DecidableEq, Repr

/-- The `TypeError`s Python's call binding can raise. -/
inductive CallError where
  | tooManyPositional
  | multipleValues (name : String)
  | unexpectedKeyword (name : String)
  | missingArgument (name : String)
deriving DecidableEq, Repr

/-- Assign positional arguments to formal parameters in order; parameters
beyond the positional count are left unbound. -/
def bindPositional {α : Type} : List ParamSpec → List α → List (String × Option α)
  | [], _ => []
  | p :: ps, [] => (p.name, none) :: bindPositional ps []
  | p :: ps, v :: vs => (p.name, some v) :: bindPositional ps vs

/-- Apply one keyword argument: an unknown name is an unexpected keyword,
a name already bound positionally or by an earlier keyword raises
"got multiple values for argument". -/
def applyKw {α : Type} : List (String × Option α) → String → α →
    Except CallError (List (String × Option α))
  | [], n, _ => .error (.unexpectedKeyword n)
  | (m, b) :: rest, n, v =>
    if m = n then
      match b with
      | some _ => .error (.multipleValues n)
      | none => .ok ((m, some v) :: rest)
    else
      (applyKw rest n v).map (fun r => (m, b) :: r)

/-- Python call binding for a callee without `*args`/`**kwargs`: bind
positionals in order (too many is a `TypeError`), fold in the keyword
arguments, then require every parameter without a default to be bound.
The result maps each parameter name to the value it received (`none`
meaning its default is used). -/
def bindCall {α : Type} (params : List ParamSpec) (pos : List α)
    (kw : List (String × α)) : Except CallError (List (String × Option α)) :=
  if params.length < pos.length then .error .tooManyPositional
  else
    match kw.foldlM (fun b (nv : String × α) => applyKw b nv.1 nv.2)
        (bindPositional params pos) with
    | .error err => .error err
    | .ok bound =>
      match (params.filter (fun p => !p.hasDefault)).find?
          (fun p => ((bound.lookup p.name).join).isNone) with
      | some p => .error (.missingArgument p.name)
      | none => .ok bound

/-- The formal parameter list (after `self`) of
`LearningRateScheduleRunner.training`, source lines 306–314. -/
def lrTrainingParams : List ParamSpec :=
  [⟨"tproblem", false⟩, ⟨"hyperparams", false⟩, ⟨"num_epochs", false⟩,
   ⟨"lr_sched_epochs", true⟩, ⟨"lr_sched_factors", true⟩,
   ⟨"train_log_interval", true⟩, ⟨"print_train_iter", true⟩]

/-- The positional argument list (after `self`) of the `self.training(...)`
call in `PTRunner.run`, source line 83, in the source's order. -/
def runTrainingCallPos {α : Type}
    (tproblem hyperparams num_epochs print_train_iter train_log_interval
     tb_log tb_log_dir : α) : List α :=
  [tproblem, hyperparams, num_epochs, print_train_iter, train_log_interval,
   tb_log, tb_log_dir]

/-! ## Specification-side definitions and concrete fixtures -/

/-- Sum of a list of idealized floats (the spec's "summed per-batch values"). -/
def sumPF : List PFloat → PFloat
  | [] => .finite 0
  | x :: xs => x.add (sumPF xs)

/-- Optional regularization addition to an already-computed mean loss. -/
def regAdd (reg : Option PFloat) (l : PFloat) : PFloat :=
  match reg with
  | some r => l.add r
  | none => l

/-- Specification-side mean loss of an evaluation pass: per-batch losses
summed, divided by the batch count, with the regularization term added
once afterwards (not averaged). -/
def meanLoss (reg : Option PFloat) (bs : List Batch) : PFloat :=
  regAdd reg ((sumPF (bs.map Batch.loss)).divNat bs.length)

/-- Specification-side mean accuracy: summed per-batch accuracies divided
by the batch count. -/
def meanAcc (bs : List Batch) : ℚ :=
  (bs.map Batch.accuracy).sum / (bs.length : ℚ)

/-- Value of the Python local `batch_loss` after a pass over `bs`, when it
held `last` before the pass: the (regularized) loss of the last batch, or
`last` unchanged when the pass delivers no batch. -/
def lastEff (reg : Option PFloat) : List Batch → Option PFloat → Option PFloat
  | [], last => last
  | b :: bs, _ => lastEff reg bs (some (effLoss reg b))

/-- Value of `batch_loss` after the training pass of epoch `e`, had it been
unassigned before the pass (`none` when the pass delivers no batch). -/
def passLast (tp : TProblem) (e : ℕ) : Option PFloat :=
  lastEff tp.reg (tp.trainBatches e) none

/-- Specification-side minibatch log of one training pass: the (regularized)
batch losses at exactly the 0-indexed positions divisible by
`train_log_interval`. -/
def loggedLosses (reg : Option PFloat) (interval : ℕ) (bs : List Batch) :
    List PFloat :=
  (((bs.map (effLoss reg)).enum).filter (fun p => p.1 % interval == 0)).map
    Prod.snd

/-- Training-step events of a pass over `bs` in epoch `e`. -/
def passTrace (e : ℕ) (bs : List Batch) : List Event :=
  (List.range bs.length).map (Event.trainStep e)

/-- Specification-side events of one epoch iteration of a driver:
train-eval evaluation, then test evaluation, and — except on the final
iteration `e = N`, which breaks before training — the optional schedule
advance followed by the training steps of the epoch's pass. -/
def epochEvents (sched : Bool) (tp : TProblem) (N e : ℕ) : List Event :=
  [.evalTrainEval e, .evalTest e] ++
    (if e = N then []
     else (if sched then [.schedStep e] else []) ++
       passTrace e (tp.trainBatches e))

/-- The four metric trajectories of a state all have length `n`. -/
def trajLen (st : St) (n : ℕ) : Prop :=
  st.train_losses.length = n ∧ st.test_losses.length = n ∧
    st.train_accuracies.length = n ∧ st.test_accuracies.length = n

/-- The output dictionary carries four metric trajectories of length `n`. -/
def trajLens4 (o : List (OutKey × OutVal)) (n : ℕ) : Prop :=
  (∃ l, o.lookup OutKey.train_losses = some (OutVal.losses l) ∧
    l.length = n) ∧
  (∃ l, o.lookup OutKey.test_losses = some (OutVal.losses l) ∧
    l.length = n) ∧
  (∃ l, o.lookup OutKey.train_accuracies = some (OutVal.accuracies l) ∧
    l.length = n) ∧
  (∃ l, o.lookup OutKey.test_accuracies = some (OutVal.accuracies l) ∧
    l.length = n)

/-- Toy test problem for concrete runs: singleton evaluation passes and a
two-batch training pass, no regularization capability. -/
def tpA : TProblem :=
  { trainEvalBatches := fun _ => [⟨.finite 1, 1⟩]
    testBatches := fun _ => [⟨.finite 2, 0⟩]
    trainBatches := fun _ => [⟨.finite 3, 0⟩, ⟨.finite 4, 0⟩]
    reg := none }

/-- Toy test problem whose training pass diverges (NaN batch loss). -/
def tpDivA : TProblem :=
  { tpA with trainBatches := fun _ => [⟨.nan, 0⟩] }

/-- Toy test problem whose evaluation passes are empty. -/
def tpEmptyEval : TProblem :=
  { tpA with trainEvalBatches := fun _ => [] }

/-- Toy test problem whose training passes deliver no batch. -/
def tpEmptyTrain : TProblem :=
  { tpA with trainBatches := fun _ => [] }

/-- Training pass of 25 batches for the minibatch-log instance. -/
def bs25 : List Batch := List.replicate 25 ⟨.finite 1, 0⟩

/-- Final state of the toy schedule-free run over `tpA` with
`num_epochs = 1` (`global_step` untouched, as in the schedule runner). -/
def stA : St :=
  { train_losses := [.finite 1, .finite 1]
    test_losses := [.finite 2, .finite 2]
    train_accuracies := [1, 1]
    test_accuracies := [0, 0]
    minibatch_train_losses := [.finite 3]
    lastBatchLoss := some (.finite 4)
    globalStep := none
    trace := [.evalTrainEval 0, .evalTest 0, .trainStep 0 0, .trainStep 0 1,
              .evalTrainEval 1, .evalTest 1] }

/-- Post-abort state of a run over `tpDivA` with `num_epochs = 2` whose
single NaN training batch diverges at epoch 0: every trajectory is padded
with its last real value to length 3. -/
def stAb : St :=
  { train_losses := [.finite 1, .finite 1, .finite 1]
    test_losses := [.finite 2, .finite 2, .finite 2]
    train_accuracies := [1, 1, 1]
    test_accuracies := [0, 0, 0]
    minibatch_train_losses := [.nan]
    lastBatchLoss := some .nan
    globalStep := none
    trace := [.evalTrainEval 0, .evalTest 0, .trainStep 0 0] }

/-- Two-batch evaluation pass for the Evaluator instance. -/
def bsW : List Batch := [⟨.finite 1, 1⟩, ⟨.finite 3, 0⟩]

/-- State after the single evaluation of a run with `num_epochs = 0` on
`tpA`. -/
def stW : St :=
  { train_losses := [.finite 1]
    test_losses := [.finite 2]
    train_accuracies := [1]
    test_accuracies := [0]
    minibatch_train_losses := []
    lastBatchLoss := none
    globalStep := none
    trace := [.evalTrainEval 0, .evalTest 0] }

/-! ## Basic lemmas -/

theorem PFloat.zero_add (x : PFloat) : add (finite 0) x = x := by
  cases x <;> simp [add]

theorem PFloat.add_zero (x : PFloat) : add x (finite 0) = x := by
  cases x <;> simp [add]

theorem PFloat.add_assoc (x y z : PFloat) :
    add (add x y) z = add x (add y z) := by
  cases x <;> cases y <;> cases z <;> simp [add] <;> ring

/-- The evaluation loop's accumulator equals the componentwise sums and the
batch count. -/
theorem evalLoop_eq (bs : List Batch) :
    evalLoop bs =
      ⟨sumPF (bs.map Batch.loss), (bs.map Batch.accuracy).sum, bs.length⟩ := by
  have h : ∀ (l : List Batch) (a : EvalAcc),
      l.foldl
        (fun acc b =>
          { loss := acc.loss.add b.loss
            accuracy := acc.accuracy + b.accuracy
            batchCount := acc.batchCount + 1 }) a =
      ⟨a.loss.add (sumPF (l.map Batch.loss)),
        a.accuracy + (l.map Batch.accuracy).sum,
        a.batchCount + l.length⟩ := by
    intro l
    induction l with
    | nil =>
      intro a
      simp [sumPF, PFloat.add_zero]
    | cons b t ih =>
      intro a
      simp only [List.foldl_cons, ih, List.map_cons, sumPF, List.sum_cons,
        List.length_cons, EvalAcc.mk.injEq]
      refine ⟨PFloat.add_assoc .., by ring, by omega⟩
  rw [evalLoop, h]
  simp [PFloat.zero_add]

/-- An empty evaluation pass divides by zero. -/
theorem evaluate_nil (reg : Option PFloat) :
    evaluate [] reg = .error .zeroDivision := rfl

/-- A nonempty evaluation pass returns the mean loss (with the
regularization term added once after the division) and the mean accuracy. -/
theorem evaluate_eq (bs : List Batch) (reg : Option PFloat) (h : bs ≠ []) :
    evaluate bs reg = .ok (meanLoss reg bs, meanAcc bs) := by
  have hlen : bs.length ≠ 0 := by simpa using h
  unfold evaluate
  rw [evalLoop_eq]
  simp only [hlen, if_false, meanLoss, meanAcc, regAdd]

/-- Characterization of every successful training pass: the final
`batch_loss` is the pass's last regularized loss (or the previous value on
an empty pass), the minibatch log gained exactly the interval-sampled
losses, and the trace gained one step event per batch.  (With
`gsTrack = true` and an unbound `global_step` a nonempty pass does not
return successfully at all.) -/
theorem trainingPass_ok_shape (reg : Option PFloat) (interval e : ℕ)
    (gsTrack : Bool) :
    ∀ (bs : List Batch) (i : ℕ) (gs : Option ℕ) (last : Option PFloat)
      (log : List PFloat) (tr : List Event) (pr : PassResult),
      trainingPass reg interval e gsTrack bs i gs last log tr = .ok pr →
      pr.lastLoss = lastEff reg bs last ∧
      pr.mblog = log ++ (((bs.map (effLoss reg)).enumFrom i).filter
        (fun p => p.1 % interval == 0)).map Prod.snd ∧
      pr.trace = tr ++ (List.range' i bs.length).map (Event.trainStep e) := by
  intro bs
  induction bs with
  | nil =>
    intro i gs last log tr pr h
    simp only [trainingPass, Except.ok.injEq] at h
    subst h
    simp [lastEff]
  | cons b t ih =>
    intro i gs last log tr pr h
    simp only [trainingPass] at h
    split at h
    · -- standard driver: the unconditional global_step increment
      split at h
      · exact absurd h (by simp)
      · obtain ⟨h1, h2, h3⟩ := ih _ _ _ _ _ _ h
        refine ⟨h1, ?_, ?_⟩
        · rw [h2]
          simp only [List.map_cons, List.enumFrom, List.filter_cons]
          by_cases hi : i % interval = 0 <;> simp [hi, List.append_assoc]
        · rw [h3]
          simp [List.range'_succ, List.append_assoc]
    · -- schedule driver: no global_step
      obtain ⟨h1, h2, h3⟩ := ih _ _ _ _ _ _ h
      refine ⟨h1, ?_, ?_⟩
      · rw [h2]
        simp only [List.map_cons, List.enumFrom, List.filter_cons]
        by_cases hi : i % interval = 0 <;> simp [hi, List.append_assoc]
      · rw [h3]
        simp [List.range'_succ, List.append_assoc]

/-- An empty train-eval pass makes the epoch's evaluation block fail with
the division-by-zero error. -/
theorem evalStep_err (tp : TProblem) (e : ℕ) (st : St)
    (h : tp.trainEvalBatches e = []) :
    evalStep tp e st = .error .zeroDivision := by
  simp [evalStep, h, evaluate_nil, bind, Except.bind]

/-- With nonempty passes, the evaluation block appends the two mean
loss/accuracy pairs and the two evaluation events. -/
theorem evalStep_eq (tp : TProblem) (e : ℕ) (st : St)
    (h1 : tp.trainEvalBatches e ≠ []) (h2 : tp.testBatches e ≠ []) :
    evalStep tp e st = .ok
      { st with
        train_losses := st.train_losses ++ [meanLoss tp.reg (tp.trainEvalBatches e)]
        train_accuracies := st.train_accuracies ++ [meanAcc (tp.trainEvalBatches e)]
        test_losses := st.test_losses ++ [meanLoss tp.reg (tp.testBatches e)]
        test_accuracies := st.test_accuracies ++ [meanAcc (tp.testBatches e)]
        trace := st.trace ++ [.evalTrainEval e, .evalTest e] } := by
  simp [evalStep, evaluate_eq _ _ h1, evaluate_eq _ _ h2, bind, Except.bind]

/-- Whenever the evaluation block succeeds, it appended exactly one entry to
each trajectory and the two evaluation events, and left the other fields
unchanged. -/
theorem evalStep_ok_shape (tp : TProblem) (e : ℕ) (st st' : St)
    (h : evalStep tp e st = .ok st') :
    ∃ l1 a1 l2 a2, st' =
      { st with
        train_losses := st.train_losses ++ [l1]
        train_accuracies := st.train_accuracies ++ [a1]
        test_losses := st.test_losses ++ [l2]
        test_accuracies := st.test_accuracies ++ [a2]
        trace := st.trace ++ [.evalTrainEval e, .evalTest e] } := by
  unfold evalStep at h
  cases hv1 : evaluate (tp.trainEvalBatches e) tp.reg with
  | error err => rw [hv1] at h; simp [bind, Except.bind] at h
  | ok p1 =>
    cases hv2 : evaluate (tp.testBatches e) tp.reg with
    | error err => rw [hv1, hv2] at h; simp [bind, Except.bind] at h
    | ok p2 =>
      rw [hv1, hv2] at h
      simp only [bind, Except.bind, Except.ok.injEq] at h
      exact ⟨p1.1, p1.2, p2.1, p2.2, h.symm⟩

/-- The schedule advance leaves everything but the trace unchanged. -/
theorem schedAdvance_fields (sched : Bool) (e : ℕ) (st : St) :
    (schedAdvance sched e st).train_losses = st.train_losses ∧
    (schedAdvance sched e st).test_losses = st.test_losses ∧
    (schedAdvance sched e st).train_accuracies = st.train_accuracies ∧
    (schedAdvance sched e st).test_accuracies = st.test_accuracies ∧
    (schedAdvance sched e st).minibatch_train_losses =
      st.minibatch_train_losses ∧
    (schedAdvance sched e st).lastBatchLoss = st.lastBatchLoss ∧
    (schedAdvance sched e st).globalStep = st.globalStep ∧
    (schedAdvance sched e st).trace =
      st.trace ++ (if sched then [Event.schedStep e] else []) := by
  cases sched <;> simp [schedAdvance]

/-- Whenever the per-epoch training block succeeds, the minibatch log
gained the interval-sampled losses, `batch_loss` became the pass's last
regularized loss (keeping its previous value on an empty pass),
`global_step` took some value, and the trace gained the optional schedule
advance followed by the pass's step events. -/
theorem epochTrain_ok_shape (sched gsTrack : Bool) (tp : TProblem)
    (interval e : ℕ) (st st2 : St)
    (h : epochTrain sched gsTrack tp interval e st = .ok st2) :
    ∃ gs2, st2 =
      { st with
        minibatch_train_losses := st.minibatch_train_losses ++
          loggedLosses tp.reg interval (tp.trainBatches e)
        lastBatchLoss := lastEff tp.reg (tp.trainBatches e) st.lastBatchLoss
        globalStep := gs2
        trace := st.trace ++ (if sched then [Event.schedStep e] else []) ++
          passTrace e (tp.trainBatches e) } := by
  unfold epochTrain at h
  split at h
  · exact absurd h (by simp)
  · next pr hp =>
    simp only [Except.ok.injEq] at h
    obtain ⟨h1, h2, h3⟩ := trainingPass_ok_shape tp.reg interval e gsTrack
      (tp.trainBatches e) 0 _ _ _ _ pr hp
    subst h
    obtain ⟨f1, f2, f3, f4, f5, f6, f7, f8⟩ := schedAdvance_fields sched e st
    refine ⟨pr.globalStep, ?_⟩
    have hm : pr.mblog = st.minibatch_train_losses ++
        loggedLosses tp.reg interval (tp.trainBatches e) := by
      rw [h2, f5]
      simp [loggedLosses, List.enum]
    have hl : pr.lastLoss =
        lastEff tp.reg (tp.trainBatches e) st.lastBatchLoss := by
      rw [h1, f6]
    have ht : pr.trace = st.trace ++
        (if sched then [Event.schedStep e] else []) ++
        passTrace e (tp.trainBatches e) := by
      rw [h3, f8]
      simp [passTrace, List.range_eq_range', List.append_assoc]
    simp only [St.mk.injEq]
    simp [f1, f2, f3, f4, hm, hl, ht]

/-- An epoch whose training pass delivers no batch leaves the state
unchanged apart from the optional schedule event: in particular
`batch_loss` and `global_step` keep their previous values. -/
theorem epochTrain_nil (sched gsTrack : Bool) (tp : TProblem)
    (interval e : ℕ) (st : St) (h : tp.trainBatches e = []) :
    epochTrain sched gsTrack tp interval e st =
      .ok (schedAdvance sched e st) := by
  unfold epochTrain
  rw [h]
  rfl

/-- The abort padding leaves a nonempty trajectory's length at
`max (length) (num_epochs + 1)`. -/
theorem abortPad_length {α : Type} (N : ℕ) (l : List α) (h : l ≠ []) :
    (abortPad N l).length = max l.length (N + 1) := by
  rw [abortPad, List.getLast?_eq_getLast l h]
  simp
  omega

/-- The abort routine turns trajectories of length `m + 1 ≤ N + 1` into
trajectories of length `N + 1`. -/
theorem abortSt_trajLen (N m : ℕ) (st : St) (hm : m ≤ N)
    (h : trajLen st (m + 1)) : trajLen (abortSt N st) (N + 1) := by
  obtain ⟨h1, h2, h3, h4⟩ := h
  have ne1 : st.train_losses ≠ [] := by
    intro hx; rw [hx] at h1; simp at h1
  have ne2 : st.test_losses ≠ [] := by
    intro hx; rw [hx] at h2; simp at h2
  have ne3 : st.train_accuracies ≠ [] := by
    intro hx; rw [hx] at h3; simp at h3
  have ne4 : st.test_accuracies ≠ [] := by
    intro hx; rw [hx] at h4; simp at h4
  refine ⟨?_, ?_, ?_, ?_⟩
  · show (abortPad N st.train_losses).length = N + 1
    rw [abortPad_length _ _ ne1, h1]; omega
  · show (abortPad N st.test_losses).length = N + 1
    rw [abortPad_length _ _ ne2, h2]; omega
  · show (abortPad N st.train_accuracies).length = N + 1
    rw [abortPad_length _ _ ne3, h3]; omega
  · show (abortPad N st.test_accuracies).length = N + 1
    rw [abortPad_length _ _ ne4, h4]; omega

/-- Loop step: a failing evaluation block propagates its error. -/
theorem trainingLoop_cons_err (sched gsTrack : Bool) (tp : TProblem)
    (N interval e : ℕ) (rest : List ℕ) (st : St) (err : RunError)
    (h : evalStep tp e st = .error err) :
    trainingLoop sched gsTrack tp N interval (e :: rest) st = .error err := by
  simp [trainingLoop, h]

/-- Loop step: at `epoch_count == num_epochs` the loop breaks right after
the evaluation block. -/
theorem trainingLoop_cons_break (sched gsTrack : Bool) (tp : TProblem)
    (N interval : ℕ) (rest : List ℕ) (st st1 : St)
    (h : evalStep tp N st = .ok st1) :
    trainingLoop sched gsTrack tp N interval (N :: rest) st = .ok st1 := by
  simp [trainingLoop, h]

/-- Loop step: a crash inside the training block (the `global_step` unbound
local) propagates. -/
theorem trainingLoop_cons_trainErr (sched gsTrack : Bool) (tp : TProblem)
    (N interval e : ℕ) (rest : List ℕ) (st st1 : St) (err : RunError)
    (hN : e ≠ N) (h : evalStep tp e st = .ok st1)
    (hep : epochTrain sched gsTrack tp interval e st1 = .error err) :
    trainingLoop sched gsTrack tp N interval (e :: rest) st = .error err := by
  simp [trainingLoop, h, hN, hep]

/-- Loop step: if after the training block `batch_loss` was never assigned,
reading it fails. -/
theorem trainingLoop_cons_unbound (sched gsTrack : Bool) (tp : TProblem)
    (N interval e : ℕ) (rest : List ℕ) (st st1 st2 : St) (hN : e ≠ N)
    (h : evalStep tp e st = .ok st1)
    (hep : epochTrain sched gsTrack tp interval e st1 = .ok st2)
    (hlb : st2.lastBatchLoss = none) :
    trainingLoop sched gsTrack tp N interval (e :: rest) st =
      .error .unboundLocal := by
  simp [trainingLoop, h, hN, hep, hlb]

/-- Loop step: a divergent `batch_loss` triggers the abort routine and the
loop breaks. -/
theorem trainingLoop_cons_abort (sched gsTrack : Bool) (tp : TProblem)
    (N interval e : ℕ) (rest : List ℕ) (st st1 st2 : St) (bl : PFloat)
    (hN : e ≠ N) (h : evalStep tp e st = .ok st1)
    (hep : epochTrain sched gsTrack tp interval e st1 = .ok st2)
    (hlb : st2.lastBatchLoss = some bl) (hdiv : bl.isDivergent = true) :
    trainingLoop sched gsTrack tp N interval (e :: rest) st =
      .ok (abortSt N st2) := by
  simp [trainingLoop, h, hN, hep, hlb, hdiv]

/-- Loop step: with a finite `batch_loss` the loop continues into the next
epoch. -/
theorem trainingLoop_cons_step (sched gsTrack : Bool) (tp : TProblem)
    (N interval e : ℕ) (rest : List ℕ) (st st1 st2 : St) (bl : PFloat)
    (hN : e ≠ N) (h : evalStep tp e st = .ok st1)
    (hep : epochTrain sched gsTrack tp interval e st1 = .ok st2)
    (hlb : st2.lastBatchLoss = some bl) (hdiv : bl.isDivergent = false) :
    trainingLoop sched gsTrack tp N interval (e :: rest) st =
      trainingLoop sched gsTrack tp N interval rest st2 := by
  simp [trainingLoop, h, hN, hep, hlb, hdiv]

/-- Any successful epoch loop started at epoch `e` with trajectories of
length `e` over the remaining `k = N + 1 - e` epoch indices returns
trajectories of length `N + 1`, whether it finishes normally or aborts. -/
theorem trainingLoop_len (sched gsTrack : Bool) (tp : TProblem)
    (N interval : ℕ) :
    ∀ (k e : ℕ) (st st' : St), e + k = N + 1 → trajLen st e →
      trainingLoop sched gsTrack tp N interval (List.range' e k) st =
        .ok st' →
      trajLen st' (N + 1) := by
  intro k
  induction k with
  | zero =>
    intro e st st' hk hlen hrun
    simp only [List.range', trainingLoop, Except.ok.injEq] at hrun
    subst hrun
    have : e = N + 1 := by omega
    subst this
    exact hlen
  | succ k ih =>
    intro e st st' hk hlen hrun
    rw [List.range'_succ] at hrun
    cases hev : evalStep tp e st with
    | error err =>
      rw [trainingLoop_cons_err sched gsTrack tp N interval e _ st err hev]
        at hrun
      exact absurd hrun (by simp)
    | ok st1 =>
      obtain ⟨l1, a1, l2, a2, hst1⟩ := evalStep_ok_shape tp e st st1 hev
      have hlen1 : trajLen st1 (e + 1) := by
        subst hst1
        obtain ⟨g1, g2, g3, g4⟩ := hlen
        refine ⟨?_, ?_, ?_, ?_⟩ <;> simp [g1, g2, g3, g4]
      by_cases hN : e = N
      · subst hN
        rw [trainingLoop_cons_break sched gsTrack tp _ interval _ st st1 hev]
          at hrun
        simp only [Except.ok.injEq] at hrun
        subst hrun
        exact hlen1
      · cases hep : epochTrain sched gsTrack tp interval e st1 with
        | error err =>
          rw [trainingLoop_cons_trainErr sched gsTrack tp N interval e _ st
            st1 err hN hev hep] at hrun
          exact absurd hrun (by simp)
        | ok st2 =>
          have hlen2 : trajLen st2 (e + 1) := by
            obtain ⟨gs2, hsh⟩ :=
              epochTrain_ok_shape sched gsTrack tp interval e st1 st2 hep
            rw [hsh]
            exact hlen1
          cases hlb : st2.lastBatchLoss with
          | none =>
            rw [trainingLoop_cons_unbound sched gsTrack tp N interval e _ st
              st1 st2 hN hev hep hlb] at hrun
            exact absurd hrun (by simp)
          | some bl =>
            cases hdiv : bl.isDivergent with
            | false =>
              rw [trainingLoop_cons_step sched gsTrack tp N interval e _ st
                st1 st2 bl hN hev hep hlb hdiv] at hrun
              exact ih (e + 1) _ st' (by omega) hlen2 hrun
            | true =>
              rw [trainingLoop_cons_abort sched gsTrack tp N interval e _ st
                st1 st2 bl hN hev hep hlb hdiv] at hrun
              simp only [Except.ok.injEq] at hrun
              subst hrun
              exact abortSt_trajLen N e _ (by omega) hlen2

/-- Any successful epoch loop produces the trace of some number `m` of
epoch iterations, each of the `epochEvents` shape. -/
theorem trainingLoop_trace (sched gsTrack : Bool) (tp : TProblem)
    (N interval : ℕ) :
    ∀ (k e : ℕ) (st st' : St),
      trainingLoop sched gsTrack tp N interval (List.range' e k) st =
        .ok st' →
      ∃ m, m ≤ k ∧ st'.trace = st.trace ++
        ((List.range' e m).map (epochEvents sched tp N)).flatten := by
  intro k
  induction k with
  | zero =>
    intro e st st' hrun
    simp only [List.range', trainingLoop, Except.ok.injEq] at hrun
    subst hrun
    exact ⟨0, by omega, by simp [List.range']⟩
  | succ k ih =>
    intro e st st' hrun
    rw [List.range'_succ] at hrun
    cases hev : evalStep tp e st with
    | error err =>
      rw [trainingLoop_cons_err sched gsTrack tp N interval e _ st err hev]
        at hrun
      exact absurd hrun (by simp)
    | ok st1 =>
      obtain ⟨l1, a1, l2, a2, hst1⟩ := evalStep_ok_shape tp e st st1 hev
      have htr1 : st1.trace =
          st.trace ++ [Event.evalTrainEval e, Event.evalTest e] := by
        subst hst1
        rfl
      by_cases hN : e = N
      · subst hN
        rw [trainingLoop_cons_break sched gsTrack tp _ interval _ st st1 hev]
          at hrun
        simp only [Except.ok.injEq] at hrun
        subst hrun
        refine ⟨1, by omega, ?_⟩
        simp [List.range'_succ, List.range', htr1, epochEvents]
      · cases hep : epochTrain sched gsTrack tp interval e st1 with
        | error err =>
          rw [trainingLoop_cons_trainErr sched gsTrack tp N interval e _ st
            st1 err hN hev hep] at hrun
          exact absurd hrun (by simp)
        | ok st2 =>
          have htr2 : st2.trace = st.trace ++ epochEvents sched tp N e := by
            obtain ⟨gs2, hsh⟩ :=
              epochTrain_ok_shape sched gsTrack tp interval e st1 st2 hep
            rw [hsh]
            show st1.trace ++ _ ++ _ = _
            simp only [htr1, epochEvents, if_neg hN]
            simp [List.append_assoc]
          cases hlb : st2.lastBatchLoss with
          | none =>
            rw [trainingLoop_cons_unbound sched gsTrack tp N interval e _ st
              st1 st2 hN hev hep hlb] at hrun
            exact absurd hrun (by simp)
          | some bl =>
            cases hdiv : bl.isDivergent with
            | false =>
              rw [trainingLoop_cons_step sched gsTrack tp N interval e _ st
                st1 st2 bl hN hev hep hlb hdiv] at hrun
              obtain ⟨m, hm, htr⟩ := ih (e + 1) _ st' hrun
              refine ⟨m + 1, by omega, ?_⟩
              rw [htr, htr2, List.range'_succ]
              simp [List.append_assoc]
            | true =>
              rw [trainingLoop_cons_abort sched gsTrack tp N interval e _ st
                st1 st2 bl hN hev hep hlb hdiv] at hrun
              simp only [Except.ok.injEq] at hrun
              subst hrun
              refine ⟨1, by omega, ?_⟩
              show st2.trace = _
              simp [List.range'_succ, List.range', htr2]

/-- Lookups into the fixed-hyperparameter output dictionary. -/
theorem stdOutput_lookup (st : St) :
    (stdOutput st).lookup OutKey.train_losses =
      some (.losses st.train_losses) ∧
    (stdOutput st).lookup OutKey.test_losses =
      some (.losses st.test_losses) ∧
    (stdOutput st).lookup OutKey.train_accuracies =
      some (.accuracies st.train_accuracies) ∧
    (stdOutput st).lookup OutKey.test_accuracies =
      some (.accuracies st.test_accuracies) := by
  refine ⟨?_, ?_, ?_, ?_⟩ <;> rfl

/-- Lookups into the schedule-aware output dictionary: no minibatch entry,
and the schedule arguments recorded verbatim. -/
theorem lrOutput_lookup (es : Option (List ℤ)) (fs : Option (List ℚ))
    (st : St) :
    (lrOutput es fs st).lookup OutKey.minibatch_train_losses = none ∧
    (lrOutput es fs st).lookup OutKey.analyzable_training_params =
      some (.trainingParams es fs) ∧
    (lrOutput es fs st).lookup OutKey.train_losses =
      some (.losses st.train_losses) ∧
    (lrOutput es fs st).lookup OutKey.test_losses =
      some (.losses st.test_losses) ∧
    (lrOutput es fs st).lookup OutKey.train_accuracies =
      some (.accuracies st.train_accuracies) ∧
    (lrOutput es fs st).lookup OutKey.test_accuracies =
      some (.accuracies st.test_accuracies) := by
  refine ⟨?_, ?_, ?_, ?_, ?_, ?_⟩ <;> rfl

/-! ## Claim theorems -/

/-- C1 (code bug): the claim says the output record is persisted iff the
`no_logs` flag is not set, with `weight_decay` having no influence.  In the
source, `PTRunner.run` line 66 assigns `no_logs = args['weight_decay']`, so
the write decision follows the truthiness of `weight_decay` instead: with
`no_logs = False` and a truthy `weight_decay` (here `1.0`) nothing is
persisted, and with `no_logs = True` and `weight_decay = None` the record is
persisted anyway. -/
theorem C1_persistence_follows_weight_decay :
    runWritesOutput ⟨some 1, false⟩ = false ∧
    runWritesOutput ⟨none, true⟩ = true := by
  constructor <;> norm_num [runWritesOutput, pyTruthy]

/-- C2 (code bug): the claim says `run` forwards each configuration value to
the `training` parameter of the same meaning.  Binding the call of
`PTRunner.run` line 83 (positional markers 0–6 = `tproblem`, `hyperparams`,
`num_epochs`, `print_train_iter`, `train_log_interval`, `tb_log`,
`tb_log_dir` in source order) against the parameter list of
`LearningRateScheduleRunner.training` shows: passing `lr_sched_epochs` /
`lr_sched_factors` through `**training_params` raises `TypeError: got
multiple values for argument 'lr_sched_epochs'`, and with no
`training_params` the schedule parameters receive `print_train_iter` (3)
and `train_log_interval` (4) while the logging parameters receive `tb_log`
(5) and `tb_log_dir` (6). -/
theorem C2_run_misbinds_lr_training_call :
    bindCall lrTrainingParams (runTrainingCallPos 0 1 2 3 4 5 6)
      [("lr_sched_epochs", 7), ("lr_sched_factors", 8)] =
        .error (.multipleValues "lr_sched_epochs") ∧
    bindCall lrTrainingParams (runTrainingCallPos 0 1 2 3 4 5 6)
      ([] : List (String × ℕ)) = .ok
      [("tproblem", some 0), ("hyperparams", some 1), ("num_epochs", some 2),
       ("lr_sched_epochs", some 3), ("lr_sched_factors", some 4),
       ("train_log_interval", some 5), ("print_train_iter", some 6)] := by
  constructor <;> rfl

/-- C5 (confirmed): on a nonempty evaluation pass the Evaluator returns the
summed per-batch losses and accuracies divided by the batch count, and with
a regularization capability returning `r` the reported mean loss is exactly
the quotient plus `r`, added once after the loop and not divided by the
batch count. -/
theorem C5_evaluator_mean_and_regularization (bs : List Batch) (r : PFloat)
    (h : bs ≠ []) :
    evaluate bs none =
      .ok ((sumPF (bs.map Batch.loss)).divNat bs.length,
        (bs.map Batch.accuracy).sum / (bs.length : ℚ)) ∧
    evaluate bs (some r) =
      .ok (((sumPF (bs.map Batch.loss)).divNat bs.length).add r,
        (bs.map Batch.accuracy).sum / (bs.length : ℚ)) := by
  constructor
  · simpa [meanLoss, meanAcc, regAdd] using evaluate_eq bs none h
  · simpa [meanLoss, meanAcc, regAdd] using evaluate_eq bs (some r) h

/-- Witness for C5 on a concrete two-batch pass. -/
theorem C5_evaluator_witness :
    bsW ≠ [] ∧
    (evaluate bsW none =
      .ok ((sumPF (bsW.map Batch.loss)).divNat bsW.length,
        (bsW.map Batch.accuracy).sum / (bsW.length : ℚ)) ∧
     evaluate bsW (some (.finite 5)) =
      .ok (((sumPF (bsW.map Batch.loss)).divNat bsW.length).add (.finite 5),
        (bsW.map Batch.accuracy).sum / (bsW.length : ℚ))) :=
  ⟨by simp [bsW],
   C5_evaluator_mean_and_regularization bsW (.finite 5) (by simp [bsW])⟩

/-- C7 (code bug): the claim says a batch's scalar loss is appended to the
minibatch log exactly when its 0-indexed position is divisible by
`train_log_interval`, 3 entries for a 25-batch pass at interval 10.  That
is the behaviour of the schedule-aware driver's pass (no `global_step`),
and of `StandardRunner`'s pass — the claim's cited lines 244–265 — only
when `global_step` was initialized, i.e. when `tb_log` was truthy (line
219).  With the default falsy `tb_log`, line 265's unconditional
`global_step += 1` raises `UnboundLocalError` at the very first batch, so
a 25-batch standard pass appends a single entry and crashes instead of
logging 3 entries per epoch.  Conjuncts: the standard pass with unbound
`global_step` errors; with `global_step = 0` it logs exactly the three
position-0/10/20 losses; the schedule-style pass logs the same three; and
the specification-side log of that pass has length 3. -/
theorem C7_global_step_crash_preempts_minibatch_log :
    trainingPass none 10 0 true bs25 0 none none [] [] =
      .error .unboundGlobalStep ∧
    (trainingPass none 10 0 true bs25 0 (some 0) none [] []).map
      PassResult.mblog = .ok [.finite 1, .finite 1, .finite 1] ∧
    (trainingPass none 10 0 false bs25 0 none none [] []).map
      PassResult.mblog = .ok [.finite 1, .finite 1, .finite 1] ∧
    (loggedLosses none 10 bs25).length = 3 := by
  refine ⟨?_, ?_, ?_, ?_⟩ <;> rfl

/-- C8 (confirmed): every completed run of the schedule-aware `training`
returns an output dictionary without a minibatch-loss entry and with an
`analyzable_training_params` sub-mapping holding the `lr_sched_epochs` and
`lr_sched_factors` arguments verbatim (Python `None` recorded as `none`),
for diverged and non-diverged runs alike. -/
theorem C8_lr_output_record (tp : TProblem) (N interval : ℕ)
    (es : Option (List ℤ)) (fs : Option (List ℚ))
    (out : List (OutKey × OutVal))
    (h : lrTraining tp N es fs interval = .ok out) :
    out.lookup OutKey.minibatch_train_losses = none ∧
    out.lookup OutKey.analyzable_training_params =
      some (.trainingParams es fs) := by
  unfold lrTraining at h
  cases hr : trainingLoop es.isSome false tp N interval (List.range (N + 1))
      initSt with
  | error err =>
    rw [hr] at h
    simp [Except.map] at h
  | ok st =>
    rw [hr] at h
    simp only [Except.map, Except.ok.injEq] at h
    subst h
    obtain ⟨g1, g2, _⟩ := lrOutput_lookup es fs st
    exact ⟨g1, g2⟩

/-- Witness for C8 on a concrete completed schedule-runner run. -/
theorem C8_lr_output_witness :
    lrTraining tpA 0 (some [2]) (some [1]) 10 =
      .ok (lrOutput (some [2]) (some [1]) stW) ∧
    ((lrOutput (some [2]) (some [1]) stW).lookup
        OutKey.minibatch_train_losses = none ∧
     (lrOutput (some [2]) (some [1]) stW).lookup
        OutKey.analyzable_training_params =
       some (.trainingParams (some [2]) (some [1]))) := by
  have h : lrTraining tpA 0 (some [2]) (some [1]) 10 =
      .ok (lrOutput (some [2]) (some [1]) stW) := by
    simp [lrTraining, trainingLoop, evalStep, evaluate, evalLoop, initSt, tpA,
      stW, lrOutput, bind, Except.bind, Except.map, List.range_succ,
      PFloat.add, PFloat.divNat]
  exact ⟨h, C8_lr_output_record tpA 0 10 (some [2]) (some [1]) _ h⟩

/-- C9 (confirmed): an evaluation pass with zero batches fails with the
division-by-zero error, and when the very first evaluation pass of a run is
empty the error propagates uncaught through `training` to the caller of
`run`: the run returns the error, so no output record exists and nothing is
persisted. -/
theorem C9_empty_eval_pass_propagates (tp : TProblem) (N interval : ℕ)
    (tb_log : Bool) (args : RunFlags) (reg : Option PFloat)
    (h : tp.trainEvalBatches 0 = []) :
    evaluate [] reg = .error .zeroDivision ∧
    stdRun tp N interval tb_log args = .error .zeroDivision := by
  refine ⟨evaluate_nil reg, ?_⟩
  unfold stdRun stdTraining
  have hrange : List.range (N + 1) = 0 :: List.range' 1 N := by
    rw [List.range_eq_range', List.range'_succ]
  rw [hrange, trainingLoop_cons_err false true tp N interval 0 _ _ _
    (evalStep_err tp 0 _ h)]
  rfl

/-- Witness for C9 on a concrete problem with empty evaluation passes. -/
theorem C9_empty_eval_witness :
    tpEmptyEval.trainEvalBatches 0 = [] ∧
    (evaluate [] (none : Option PFloat) = .error .zeroDivision ∧
     stdRun tpEmptyEval 3 10 false ⟨none, false⟩ = .error .zeroDivision) :=
  ⟨rfl,
   C9_empty_eval_pass_propagates tpEmptyEval 3 10 false ⟨none, false⟩ none rfl⟩

/-- C10 (confirmed): when the very first training pass delivers no batch
(and at least one training pass runs, `0 < N`), the loop body never runs —
in particular line 265 is never reached — so the divergence check reads
the never-assigned local `batch_loss` and both driver variants fail with
an unhandled error instead of completing or invoking the abort routine,
for every `tb_log` setting. -/
theorem C10_empty_first_pass_unbound (tp : TProblem) (N interval : ℕ)
    (tb_log : Bool) (es : Option (List ℤ)) (fs : Option (List ℚ))
    (h0 : 0 < N)
    (h1 : tp.trainEvalBatches 0 ≠ []) (h2 : tp.testBatches 0 ≠ [])
    (h3 : tp.trainBatches 0 = []) :
    stdTraining tp N interval tb_log = .error .unboundLocal ∧
    lrTraining tp N es fs interval = .error .unboundLocal := by
  have key : ∀ (sc gst : Bool) (gs0 : Option ℕ),
      trainingLoop sc gst tp N interval (List.range (N + 1))
        { initSt with globalStep := gs0 } = .error .unboundLocal := by
    intro sc gst gs0
    have hrange : List.range (N + 1) = 0 :: List.range' 1 N := by
      rw [List.range_eq_range', List.range'_succ]
    rw [hrange]
    have hev := evalStep_eq tp 0 { initSt with globalStep := gs0 } h1 h2
    have hN : (0 : ℕ) ≠ N := by omega
    refine trainingLoop_cons_unbound sc gst tp N interval 0 _ _ _ _ hN hev
      (epochTrain_nil sc gst tp interval 0 _ h3) ?_
    rw [(schedAdvance_fields sc 0 _).2.2.2.2.2.1]
    rfl
  constructor
  · unfold stdTraining
    rw [key false true _]
    rfl
  · unfold lrTraining
    rw [show initSt = { initSt with globalStep := none } from rfl,
      key es.isSome false none]
    rfl

/-- Witness for C10 on a concrete problem with empty training passes. -/
theorem C10_empty_first_pass_witness :
    0 < 2 ∧ tpEmptyTrain.trainBatches 0 = [] ∧
    (stdTraining tpEmptyTrain 2 10 false = .error .unboundLocal ∧
     lrTraining tpEmptyTrain 2 none none 10 = .error .unboundLocal) :=
  ⟨by norm_num, rfl,
   C10_empty_first_pass_unbound tpEmptyTrain 2 10 false none none
     (by norm_num) (by simp [tpEmptyTrain, tpA]) (by simp [tpEmptyTrain, tpA])
     rfl⟩

/-- C3 (confirmed): every run of either driver variant that completes
(in particular every run that completes without divergence) returns four
metric trajectories of length exactly `num_epochs + 1`, for every `tb_log`
setting. -/
theorem C3_trajectory_lengths (tp : TProblem) (N interval : ℕ)
    (tb_log : Bool) (es : Option (List ℤ)) (fs : Option (List ℚ)) :
    (∀ out, stdTraining tp N interval tb_log = .ok out →
      trajLens4 out (N + 1)) ∧
    (∀ out, lrTraining tp N es fs interval = .ok out →
      trajLens4 out (N + 1)) := by
  have key : ∀ (sc gst : Bool) (st0 st' : St), trajLen st0 0 →
      trainingLoop sc gst tp N interval (List.range (N + 1)) st0 = .ok st' →
      trajLen st' (N + 1) := by
    intro sc gst st0 st' h0 hrun
    rw [List.range_eq_range'] at hrun
    exact trainingLoop_len sc gst tp N interval (N + 1) 0 st0 st' (by omega)
      h0 hrun
  constructor
  · intro out hout
    unfold stdTraining at hout
    cases hr : trainingLoop false true tp N interval (List.range (N + 1))
        { initSt with globalStep := if tb_log then some 0 else none } with
    | error err =>
      rw [hr] at hout
      simp [Except.map] at hout
    | ok st =>
      rw [hr] at hout
      simp only [Except.map, Except.ok.injEq] at hout
      subst hout
      obtain ⟨g1, g2, g3, g4⟩ := key false true
        { initSt with globalStep := if tb_log then some 0 else none } st
        ⟨rfl, rfl, rfl, rfl⟩ hr
      obtain ⟨s1, s2, s3, s4⟩ := stdOutput_lookup st
      exact ⟨⟨_, s1, g1⟩, ⟨_, s2, g2⟩, ⟨_, s3, g3⟩, ⟨_, s4, g4⟩⟩
  · intro out hout
    unfold lrTraining at hout
    cases hr : trainingLoop es.isSome false tp N interval (List.range (N + 1))
        initSt with
    | error err =>
      rw [hr] at hout
      simp [Except.map] at hout
    | ok st =>
      rw [hr] at hout
      simp only [Except.map, Except.ok.injEq] at hout
      subst hout
      obtain ⟨g1, g2, g3, g4⟩ := key es.isSome false initSt st
        ⟨rfl, rfl, rfl, rfl⟩ hr
      obtain ⟨_, _, s1, s2, s3, s4⟩ := lrOutput_lookup es fs st
      exact ⟨⟨_, s1, g1⟩, ⟨_, s2, g2⟩, ⟨_, s3, g3⟩, ⟨_, s4, g4⟩⟩

/-- Witness for C3 on a concrete completed run with `num_epochs = 1` (the
standard driver run with `tb_log = True`, so it completes). -/
theorem C3_trajectory_witness :
    stdTraining tpA 1 10 true = .ok (stdOutput stA) ∧
    lrTraining tpA 1 none none 10 = .ok (lrOutput none none stA) ∧
    trajLens4 (stdOutput stA) 2 ∧ trajLens4 (lrOutput none none stA) 2 := by
  have h1 : stdTraining tpA 1 10 true = .ok (stdOutput stA) := by
    simp [stdTraining, trainingLoop, evalStep, evaluate, evalLoop, epochTrain,
      schedAdvance, trainingPass, effLoss, initSt, tpA, stA, stdOutput, bind,
      Except.bind, Except.map, List.range_succ, PFloat.add, PFloat.divNat,
      PFloat.isDivergent]
  have h2 : lrTraining tpA 1 none none 10 = .ok (lrOutput none none stA) := by
    simp [lrTraining, trainingLoop, evalStep, evaluate, evalLoop, epochTrain,
      schedAdvance, trainingPass, effLoss, initSt, tpA, stA, lrOutput, bind,
      Except.bind, Except.map, List.range_succ, PFloat.add, PFloat.divNat,
      PFloat.isDivergent]
  exact ⟨h1, h2, (C3_trajectory_lengths tpA 1 10 true none none).1 _ h1,
    (C3_trajectory_lengths tpA 1 10 true none none).2 _ h2⟩

/-- C6 (confirmed): the trace of every completed run of either driver
(every `sched`/`gsTrack` instantiation and every initial `global_step`) is
a concatenation of per-epoch blocks `epochEvents`, in each of which the
train-eval evaluation comes first, then the test evaluation, and only then
(and only for epochs `≠ num_epochs`) the schedule advance and the epoch's
training steps; the block of epoch `num_epochs` — the final iteration —
contains no training events, so the evaluation snapshots bracket the
training passes. -/
theorem C6_epoch_event_order (sched gsTrack : Bool) (tp : TProblem)
    (N interval : ℕ) (gs0 : Option ℕ) (st' : St)
    (h : trainingLoop sched gsTrack tp N interval (List.range (N + 1))
      { initSt with globalStep := gs0 } = .ok st') :
    ∃ m, m ≤ N + 1 ∧
      st'.trace = ((List.range m).map (epochEvents sched tp N)).flatten := by
  rw [List.range_eq_range'] at h
  obtain ⟨m, hm, htr⟩ :=
    trainingLoop_trace sched gsTrack tp N interval (N + 1) 0 _ st' h
  refine ⟨m, hm, ?_⟩
  rw [htr]
  simp [initSt, List.range_eq_range']

/-- Witness for C6 on a concrete completed run with `num_epochs = 1`. -/
theorem C6_epoch_event_witness :
    trainingLoop false false tpA 1 10 (List.range 2)
      { initSt with globalStep := none } = .ok stA ∧
    (∃ m, m ≤ 1 + 1 ∧
      stA.trace = ((List.range m).map (epochEvents false tpA 1)).flatten) := by
  have h : trainingLoop false false tpA 1 10 (List.range 2)
      { initSt with globalStep := none } = .ok stA := by
    simp [trainingLoop, evalStep, evaluate, evalLoop, epochTrain, schedAdvance,
      trainingPass, effLoss, initSt, tpA, stA, bind, Except.bind,
      List.range_succ, PFloat.add, PFloat.divNat, PFloat.isDivergent]
  exact ⟨h, C6_epoch_event_order false false tpA 1 10 none stA h⟩

/-- C4 (code bug): the claim says a NaN/infinite last batch loss at epoch
`e < num_epochs` makes the run terminate early via the abort routine (the
routine itself, outside the provided sources, is modelled from spec §4.4)
with every trajectory padded with its last real value to length
`num_epochs + 1`.  That is what the schedule-aware driver does, and what
`StandardRunner.training` does only when `tb_log` is truthy so that line
219 initialized `global_step`; with the default falsy `tb_log`, line 265's
unconditional `global_step += 1` raises `UnboundLocalError` at the very
first training batch, and the run crashes before the divergence check at
line 270 can invoke the abort routine.  Evaluated on a problem whose
single training batch has a NaN loss, with `num_epochs = 2`: the standard
driver with `tb_log = False` returns the unbound-`global_step` error,
while with `tb_log = True` it returns the abort-padded output of `stAb`
(each trajectory `[v, v, v]`, the epoch-0 value repeated), as does the
schedule-aware driver. -/
theorem C4_global_step_crash_preempts_abort :
    stdTraining tpDivA 2 10 false = .error .unboundGlobalStep ∧
    stdTraining tpDivA 2 10 true = .ok (stdOutput stAb) ∧
    lrTraining tpDivA 2 none none 10 = .ok (lrOutput none none stAb) := by
  refine ⟨?_, ?_, ?_⟩ <;>
    simp [stdTraining, lrTraining, trainingLoop, evalStep, evaluate, evalLoop,
      epochTrain, schedAdvance, trainingPass, effLoss, initSt, tpDivA, tpA,
      stAb, stdOutput, lrOutput, abortSt, abortPad, bind, Except.bind,
      Except.map, List.range_succ, PFloat.add, PFloat.divNat,
      PFloat.isDivergent, List.getLast?, List.replicate]

end DeepOBS
